import Mathlib

/-!
# Verification of the invoice-finder matching core

Shallow embedding of the reconciliation matcher (`src/reconcile.js`), the
statement parsers (`src/bank_parser.js`) and the duplicate scorer
(`src/sheets.js`) of the invoice-finder repository, together with proofs
and refutations of the frozen specification claims.

Modelling conventions:
* JS numbers are modelled by the proof-free fraction type `Q` below
  (exact rational arithmetic; IEEE-754 rounding artifacts are idealized
  away, as usual for a shallow embedding).
* JS strings are Lean `String`s; all string operations are re-implemented
  by structural recursion on the underlying character list so that every
  definition evaluates inside the kernel.
* Mutable invoice rows are threaded explicitly: a reconciliation run maps
  a list of `InvRow` records to an updated list, and match results reference
  invoices by their position in that list (object identity in JS).
* `Date` values are abstracted to civil day numbers: `parseDate` returns
  `some d` (days since an epoch) exactly when the text splits into three
  dash-separated numeric fields that form a valid calendar date, and
  `none` otherwise (JS `null` / `Invalid Date`).  Both `Date` objects
  produced by the code are midnight-aligned, so the millisecond `ceil`
  division of the source is exactly the day distance.
-/

/-! ## Exact fractions (JS numbers) -/

/-- A fraction `num / den`.  All constructors used in this development keep
`den` positive, and no normalization (gcd) is ever performed, so every
operation reduces inside the kernel. -/
structure Q where
  num : Int
  den : Nat
  deriving DecidableEq, Repr

def Q.ofInt (n : Int) : Q := ⟨n, 1⟩

instance : OfNat Q n := ⟨Q.ofInt n⟩

def Q.neg (a : Q) : Q := ⟨-a.num, a.den⟩

def Q.add (a b : Q) : Q := ⟨a.num * b.den + b.num * a.den, a.den * b.den⟩

def Q.sub (a b : Q) : Q := a.add b.neg

def Q.mul (a b : Q) : Q := ⟨a.num * b.num, a.den * b.den⟩

/-- `Math.abs`. -/
def Q.abs (a : Q) : Q := ⟨|a.num|, a.den⟩

/-- Value comparison `a < b` by cross multiplication (valid because all
denominators are positive). -/
def Q.lt (a b : Q) : Bool := a.num * b.den < b.num * a.den

def Q.le (a b : Q) : Bool := a.num * b.den ≤ b.num * a.den

/-- Value equality by cross multiplication. -/
def Q.eq (a b : Q) : Bool := a.num * b.den == b.num * a.den

/-! ## JS string primitives -/

/-- Does `needle` match at the head of `hay`? -/
def headMatch : List Char → List Char → Bool
  | [], _ => true
  | _ :: _, [] => false
  | a :: as, b :: bs => a == b && headMatch as bs

def inclAux (needle : List Char) : List Char → Bool
  | [] => headMatch needle []
  | c :: rest => headMatch needle (c :: rest) || inclAux needle rest

/-- JS `hay.includes(needle)` (empty needle is always found). -/
def jsIncludes (hay needle : String) : Bool := inclAux needle.data hay.data

/-- JS `toLowerCase` restricted to the alphabet that occurs in this code
base: ASCII letters plus the Polish uppercase diacritics. -/
def jsToLowerChar (c : Char) : Char :=
  if 'A' ≤ c ∧ c ≤ 'Z' then Char.ofNat (c.toNat + 32)
  else if c = 'Ą' then 'ą' else if c = 'Ć' then 'ć' else if c = 'Ę' then 'ę'
  else if c = 'Ł' then 'ł' else if c = 'Ń' then 'ń' else if c = 'Ó' then 'ó'
  else if c = 'Ś' then 'ś' else if c = 'Ź' then 'ź' else if c = 'Ż' then 'ż'
  else c

def jsToLower (s : String) : String := ⟨s.data.map jsToLowerChar⟩

def isLowerAlnum (c : Char) : Bool :=
  ('a' ≤ c && c ≤ 'z') || ('0' ≤ c && c ≤ '9')

/-- JS `.replace(/[^a-z0-9]/g, '')`. -/
def keepAlnum (s : String) : String := ⟨s.data.filter isLowerAlnum⟩

/-- `normalizeString` from `src/sheets.js`: lowercase, then strip every
character outside `[a-z0-9]`. -/
def normalizeString (s : String) : String := keepAlnum (jsToLower s)

def isWsChar (c : Char) : Bool := c == ' ' || c == '\t' || c == '\n' || c == '\r'

def dropLeadingWs : List Char → List Char
  | [] => []
  | c :: rest => if isWsChar c then dropLeadingWs rest else c :: rest

/-- JS `String.prototype.trim`. -/
def jsTrim (s : String) : String :=
  ⟨(dropLeadingWs (dropLeadingWs s.data.reverse).reverse)⟩

/-- JS `.replace(/\s+/g, ' ')`: collapse every whitespace run to one space. -/
def collapseWsAux : List Char → Bool → List Char
  | [], _ => []
  | c :: rest, inRun =>
    if isWsChar c then
      if inRun then collapseWsAux rest true else ' ' :: collapseWsAux rest true
    else c :: collapseWsAux rest false

def collapseWs (s : String) : String := ⟨collapseWsAux s.data false⟩

/-- JS `s.split(sep)` for a single-character separator. -/
def jsSplitAux (sep : Char) : List Char → List Char → List String
  | [], acc => [⟨acc.reverse⟩]
  | c :: rest, acc =>
    if c == sep then ⟨acc.reverse⟩ :: jsSplitAux sep rest []
    else jsSplitAux sep rest (c :: acc)

def jsSplit (s : String) (sep : Char) : List String := jsSplitAux sep s.data []

/-- JS `s.split(' ')[0]`: everything before the first space. -/
def firstWord (s : String) : String := ⟨s.data.takeWhile (· != ' ')⟩

/-- JS `Array.prototype.join(',')`. -/
def joinComma : List String → String
  | [] => ""
  | [s] => s
  | s :: rest => s ++ "," ++ joinComma rest

/-- JS `s.replace(',', '.')` — only the first comma is replaced. -/
def replaceFirstComma : List Char → List Char
  | [] => []
  | c :: rest => if c == ',' then '.' :: rest else c :: replaceFirstComma rest

def isDigitChar (c : Char) : Bool := '0' ≤ c && c ≤ '9'

def digitVal (c : Char) : Nat := c.toNat - '0'.toNat

def digitsToNat : List Char → Nat → Nat
  | [], acc => acc
  | c :: rest, acc => digitsToNat rest (acc * 10 + digitVal c)

/-! ## JS numeric parsing -/

/-- JS `parseFloat` on strings drawn from the digits/dot/minus alphabet:
an optional sign, then an integer part and/or a `.`-separated fractional
part (at least one digit in total); parsing stops at the first character
that can no longer extend the number, and `none` models `NaN`. -/
def parseFloatQ (s : String) : Option Q :=
  let cs := s.data
  let (sign, cs1) : Int × List Char :=
    match cs with
    | '-' :: r => (-1, r)
    | '+' :: r => (1, r)
    | r => (1, r)
  let intPart := cs1.takeWhile isDigitChar
  let rest := cs1.drop intPart.length
  let fracPart :=
    match rest with
    | '.' :: r => r.takeWhile isDigitChar
    | _ => []
  if intPart.isEmpty && fracPart.isEmpty then none
  else
    some ⟨sign * (digitsToNat intPart 0 * 10 ^ fracPart.length +
                  digitsToNat fracPart 0), 10 ^ fracPart.length⟩

/-- `parseAmount` from `src/sheets.js`: replace the first comma by a dot,
strip everything but digits, dots and minus signs, `parseFloat`, and
fall back to `0` (`|| 0`, which also sends `NaN` and `-0` to `0`). -/
def parseAmount (val : String) : Q :=
  let clean : List Char :=
    (replaceFirstComma val.data).filter (fun c => isDigitChar c || c == '.' || c == '-')
  (parseFloatQ ⟨clean⟩).getD 0

/-- JS `x.toFixed(2)` for the non-negative amounts this code formats:
round to hundredths and print with two decimals. -/
def toFixed2 (q : Q) : String :=
  let cents : Int := (q.num * 200 + q.den) / (2 * q.den)
  let n := cents.toNat
  let euros := n / 100
  let c := n % 100
  toString euros ++ "." ++ (if c < 10 then "0" else "") ++ toString c

/-! ## Dates

`parseDate` in `src/reconcile.js` splits a `DD-MM-YYYY` string on `-` and
builds a JS `Date` from the reassembled ISO string; `parseInvoiceDate`
feeds the registry cell to `new Date(...)` directly (the code comments
note that the registry stores ISO `YYYY-MM-DD`).  Both are modelled at
civil-day granularity: a date is the number of days since 1970-01-01
(Hinnant's civil-from-days algorithm), and unparseable input is `none`. -/

def daysInMonth (y m : Nat) : Nat :=
  if m = 2 then
    if y % 4 = 0 && (y % 100 ≠ 0 || y % 400 = 0) then 29 else 28
  else if m = 4 || m = 6 || m = 9 || m = 11 then 30
  else 31

/-- Days from 1970-01-01 of the civil date `y-m-d` (valid input assumed). -/
def daysFromCivil (y m d : Nat) : Int :=
  let y' : Int := if m ≤ 2 then (y : Int) - 1 else y
  let era : Int := (if y' ≥ 0 then y' else y' - 399) / 400
  let yoe : Int := y' - era * 400
  let mp : Int := ((m : Int) + 9) % 12
  let doy : Int := (153 * mp + 2) / 5 + (d : Int) - 1
  let doe : Int := yoe * 365 + yoe / 4 - yoe / 100 + doy
  era * 146097 + doe - 719468

def allDigits (s : String) : Bool := !s.data.isEmpty && s.data.all isDigitChar

/-- Common validation: three numeric dash-separated fields making a real
civil date. -/
def civilOfFields (y m d : String) : Option Int :=
  if allDigits y && allDigits m && allDigits d then
    let yn := digitsToNat y.data 0
    let mn := digitsToNat m.data 0
    let dn := digitsToNat d.data 0
    if 1 ≤ mn && mn ≤ 12 && 1 ≤ dn && dn ≤ daysInMonth yn mn then
      some (daysFromCivil yn mn dn)
    else none
  else none

/-- `parseDate` (bank side, `DD-MM-YYYY`). -/
def parseDate (s : String) : Option Int :=
  if s = "" then none
  else
    match jsSplit s '-' with
    | [d, m, y] => civilOfFields y m d
    | _ => none

/-- `parseInvoiceDate` (registry side, ISO `YYYY-MM-DD`). -/
def parseInvoiceDate (s : String) : Option Int :=
  if s = "" then none
  else
    match jsSplit s '-' with
    | [y, m, d] => civilOfFields y m d
    | _ => none


/-! ## Data model

`Tx` is the transaction shape produced by both statement parsers
(`bank_parser.js`).  The delimited-text parser pushes no `type` property;
that absent property is modelled by the empty string (`tx.type || ''`
and `tx.type === '…'` behave identically under this encoding, because
the fee label is non-empty). -/

structure Tx where
  date : String
  amount : Q
  currency : String
  counterparty : String
  description : String
  typ : String
  raw : String
  deriving DecidableEq, Repr

/-- A registry invoice row (`getAllInvoices` result) restricted to the
cells the matcher reads — `inv[3]` number, `inv[4]` issue date,
`inv[5]` amount cell, `inv[7]` seller name — together with the mutable
annotations the run writes onto the row object (`matched`, `partial`,
`notes`; the JS `partial` property is named `partFlag` here because
`partial` is a Lean keyword). -/
structure InvRow where
  number : String
  issueDate : String
  amountCell : String
  sellerName : String
  matched : Bool := false
  partFlag : Bool := false
  notes : String := ""
  deriving DecidableEq, Repr

/-- One entry of `matched`: the invoice (and the subset-sum extras) are
referenced by their position in the invoice list, which models JS object
identity.  `additional = []` models the absent `additionalInvoices`
property of non-combination matches. -/
structure MatchRes where
  transaction : Tx
  invIdx : Nat
  score : Nat
  additional : List Nat
  deriving DecidableEq, Repr

structure ExemptRes where
  transaction : Tx
  reason : String
  deriving DecidableEq, Repr

structure RecRes where
  matched : List MatchRes
  missing : List Tx
  exempt : List ExemptRes
  deriving DecidableEq, Repr

/-- One `config.exemptions` rule (`{keywords, category}` from
`config.json`, which is external data supplied at run time). -/
structure ExRule where
  keywords : List String
  category : String
  deriving DecidableEq, Repr

/-- All invoice indices referenced by a match result (primary invoice
plus combined subset). -/
def MatchRes.refs (m : MatchRes) : List Nat := m.invIdx :: m.additional

/-- The per-transaction outcome of the classification branch. -/
inductive TxOut where
  | matchedOut (m : MatchRes)
  | missingOut (t : Tx)
  | exemptOut (e : ExemptRes)
  deriving DecidableEq, Repr

/-! ## Reconciliation matcher (`reconcileTransactions`, `src/reconcile.js`)

The four strategies and the classification branch are transcribed phase
by phase; each phase is its own definition purely for proof structure,
and together they form the body of the JS `for (const tx of …)` loop. -/

/-- Tolerance `0.05`. -/
def tol : Q := ⟨1, 20⟩

/-- Strategy 1 score of an amount-matching invoice: base `50`, date
proximity `≤ 7` days adds `40` (`+10` more when same-day), seller-name
containment in counterparty+description adds `10`. -/
def strat1Score (txDate : Option Int) (txDesc : String) (inv : InvRow) : Nat :=
  let score :=
    match txDate, parseInvoiceDate inv.issueDate with
    | some td, some idv =>
      let diffDays := (td - idv).natAbs
      if diffDays ≤ 7 then (if diffDays = 0 then 100 else 90) else 50
    | _, _ => 50
  let invSeller := jsToLower inv.sellerName
  if invSeller ≠ "" && jsIncludes txDesc invSeller then score + 10 else score

/-- Strategy 1 step for one enumerated invoice: skip consumed rows,
require the amount within `0.05`, and let strictly better scores replace
the best candidate. -/
def strat1Step (txAmount : Q) (txDate : Option Int) (txDesc : String)
    (best : Option Nat × Nat) (p : Nat × InvRow) : Option Nat × Nat :=
  if p.2.matched then best
  else if Q.lt (Q.abs (Q.sub (Q.abs txAmount) (Q.abs (parseAmount p.2.amountCell)))) tol then
    if strat1Score txDate txDesc p.2 > best.2 then (some p.1, strat1Score txDate txDesc p.2)
    else best
  else best

def strat1 (txAmount : Q) (txDate : Option Int) (txDesc : String)
    (invs : List InvRow) : Option Nat × Nat :=
  invs.enum.foldl (strat1Step txAmount txDate txDesc) (none, 0)

/-- Strategy 2 amount acceptance: `diff < 100` or `diff < 10%` of the
invoice amount. -/
def s2AmountOk (txAmount invAmount : Q) : Bool :=
  let diff := Q.abs (Q.sub (Q.abs txAmount) (Q.abs invAmount))
  Q.lt diff 100 || Q.lt diff (Q.mul (Q.abs invAmount) ⟨1, 10⟩)

/-- Strategy 2 (embedded invoice number), first match wins: the plain
lowercased number (length ≥ 3) found verbatim in the transaction text,
or — only when the verbatim check fails and the number is longer than
5 — found after stripping both sides to `[a-z0-9]`. -/
def strat2 (txDesc : String) (txAmount : Q) : List (Nat × InvRow) → Option Nat
  | [] => none
  | (i, inv) :: rest =>
    if inv.matched then strat2 txDesc txAmount rest
    else
      let invNumber := jsToLower (jsTrim inv.number)
      if invNumber.length < 3 then strat2 txDesc txAmount rest
      else if jsIncludes txDesc invNumber then
        if s2AmountOk txAmount (parseAmount inv.amountCell) then some i
        else strat2 txDesc txAmount rest
      else if invNumber.length > 5 &&
          jsIncludes (keepAlnum txDesc) (keepAlnum invNumber) then
        if s2AmountOk txAmount (parseAmount inv.amountCell) then some i
        else strat2 txDesc txAmount rest
      else strat2 txDesc txAmount rest

/-- Strategy 3 trigger: seller/counterparty containment either way,
seller found in the description, or equal first words longer than 3. -/
def s3Trigger (txCounterparty txDesc invSeller : String) : Bool :=
  let sellerMatch := jsIncludes txCounterparty invSeller || jsIncludes invSeller txCounterparty
  let txFirstWord := firstWord txCounterparty
  let invFirstWord := firstWord invSeller
  let firstWordMatch := txFirstWord.data.length > 3 && invFirstWord.data.length > 3 &&
    txFirstWord == invFirstWord
  let descMatch := jsIncludes txDesc invSeller
  sellerMatch || descMatch || firstWordMatch

/-- Strategy 3 (counterparty + fuzzy amount) with its embedded partial
branch ("Strategy 5" in the source comments).  Returns the updated best
candidate/score and the invoice list, whose rows the partial branch
annotates in place (`partial`, `notes`) even before acceptance. -/
def strat3 (txCounterparty txDesc : String) (txAmount : Q) :
    List (Nat × InvRow) → Option Nat → Nat → List InvRow → Option Nat × Nat × List InvRow
  | [], best, bestScore, invs => (best, bestScore, invs)
  | (i, inv) :: rest, best, bestScore, invs =>
    if inv.matched then strat3 txCounterparty txDesc txAmount rest best bestScore invs
    else
      let invSeller := jsToLower inv.sellerName
      if invSeller = "" then strat3 txCounterparty txDesc txAmount rest best bestScore invs
      else if s3Trigger txCounterparty txDesc invSeller then
        let invAmount := parseAmount inv.amountCell
        let diff := Q.abs (Q.sub (Q.abs txAmount) (Q.abs invAmount))
        if Q.lt diff 50 || Q.lt diff (Q.mul (Q.abs invAmount) ⟨1, 20⟩) then
          (some i, 75, invs)
        else if Q.lt (Q.add (Q.abs invAmount) 50) (Q.abs txAmount) then
          if bestScore < 70 then
            let remaining := Q.sub (Q.abs txAmount) (Q.abs invAmount)
            let invs' := invs.set i { inv with
              partFlag := true,
              notes := "Partial Match. Remaining: " ++ toFixed2 remaining }
            strat3 txCounterparty txDesc txAmount rest (some i) 70 invs'
          else strat3 txCounterparty txDesc txAmount rest best bestScore invs
        else strat3 txCounterparty txDesc txAmount rest best bestScore invs
      else strat3 txCounterparty txDesc txAmount rest best bestScore invs

/-- Strategy 4 candidate pool: unconsumed invoices whose (non-empty)
lowercased seller name and the lowercased counterparty contain one
another in either direction. -/
def s4Candidates (txCounterparty : String) (invs : List InvRow) : List (Nat × InvRow) :=
  invs.enum.filter fun p =>
    !p.2.matched &&
      (let invSeller := jsToLower p.2.sellerName
       invSeller ≠ "" &&
         (jsIncludes txCounterparty invSeller || jsIncludes invSeller txCounterparty))

/-- `findSubsetSum`'s recursive worker: stop with the accumulated subset
once the running sum is within tolerance of the target; abandon the
branch when the pool is exhausted or the sum overshoots; otherwise try
including the next invoice before trying without it. -/
def findSubsetSumGo (target tolr : Q) :
    List (Nat × InvRow) → Q → List Nat → Option (List Nat)
  | rest, currentSum, cur =>
    if Q.le (Q.abs (Q.sub currentSum target)) tolr then some cur
    else
      match rest with
      | [] => none
      | (i, inv) :: rest' =>
        if Q.lt (Q.add target tolr) currentSum then none
        else
          match findSubsetSumGo target tolr rest'
              (Q.add currentSum (Q.abs (parseAmount inv.amountCell))) (cur ++ [i]) with
          | some r => some r
          | none => findSubsetSumGo target tolr rest' currentSum cur

def findSubsetSum (cands : List (Nat × InvRow)) (target : Q) : Option (List Nat) :=
  findSubsetSumGo target tol cands 0 []

/-- `(tx.counterparty + ' ' + tx.description + ' ' + (tx.type || '')).toLowerCase()`. -/
def combinedText (tx : Tx) : String :=
  jsToLower (tx.counterparty ++ " " ++ tx.description ++ " " ++ tx.typ)

/-- The exemption classifier: first matching `config.exemptions` rule
(case-insensitive keyword containment), then the hardcoded bank-fee
type label as a fallback. -/
def exemptCategory (cfg : List ExRule) (tx : Tx) : Option String :=
  let ct := combinedText tx
  match cfg.find? (fun r => r.keywords.any fun k => jsIncludes ct (jsToLower k)) with
  | some r => some r.category
  | none => if tx.typ = "Opłaty i prowizje" then some "FEES" else none

def setMatched (l : List InvRow) (i : Nat) : List InvRow :=
  match l[i]? with
  | some v => l.set i { v with matched := true }
  | none => l

/-- `bestMatch.matched = true` followed by
`bestMatch.additionalInvoices.forEach(i => i.matched = true)`. -/
def markMatched (invs : List InvRow) (idxs : List Nat) : List InvRow :=
  idxs.foldl setMatched invs

/-- The strategy cascade of the per-transaction loop: strategies 1-4 in
order, each tried only while no best match exists.  Returns the best
candidate, its score, the subset-sum extras, and the (possibly
partial-annotated) invoice list.  `none` models the `TypeError` the
source throws when `findSubsetSum` returns the empty subset
(`combo[0]` is `undefined`, and the subsequent property assignment
crashes), which happens when the transaction amount is already within
tolerance of zero. -/
def selectMatch (invs : List InvRow) (tx : Tx) :
    Option (Option Nat × Nat × List Nat × List InvRow) :=
  let txAmount := tx.amount
  let txDate := parseDate tx.date
  let txDesc := jsToLower (tx.counterparty ++ " " ++ tx.description)
  let r1 := strat1 txAmount txDate txDesc invs
  let r2 : Option Nat × Nat :=
    match r1.1 with
    | some _ => r1
    | none =>
      match strat2 txDesc txAmount invs.enum with
      | some i => (some i, 85)
      | none => (none, r1.2)
  let txCounterparty := jsToLower tx.counterparty
  let txDescOnly := jsToLower tx.description
  let r3 : Option Nat × Nat × List InvRow :=
    match r2.1 with
    | some _ => (r2.1, r2.2, invs)
    | none => strat3 txCounterparty txDescOnly txAmount invs.enum none r2.2 invs
  let invs3 := r3.2.2
  match r3.1 with
  | some i => some (some i, r3.2.1, [], invs3)
  | none =>
    let cands := s4Candidates txCounterparty invs3
    if 1 < cands.length && cands.length < 10 then
      match findSubsetSum cands (Q.abs txAmount) with
      | some [] => none
      | some (c :: restc) => some (some c, 95, restc, invs3)
      | none => some (none, r3.2.1, [], invs3)
    else some (none, r3.2.1, [], invs3)

/-- The classification branch: first matching exemption rule or the
hardcoded fee fallback, otherwise missing. -/
def classifyTx (cfg : List ExRule) (tx : Tx) : TxOut :=
  match exemptCategory cfg tx with
  | some c => .exemptOut { transaction := tx, reason := c }
  | none => .missingOut tx

/-- The body of the per-transaction loop of `reconcileTransactions`:
the strategy cascade, then acceptance at score >= 70 (marking the
referenced invoices consumed) or the exemption/missing classification. -/
def processTx (cfg : List ExRule) (invs : List InvRow) (tx : Tx) :
    Option (List InvRow × TxOut) :=
  match selectMatch invs tx with
  | none => none
  | some (bestMatch, bestScore, additional, invs3) =>
    match bestMatch with
    | some bi =>
      if bestScore ≥ 70 then
        some (markMatched invs3 (bi :: additional),
              .matchedOut { transaction := tx, invIdx := bi, score := bestScore,
                            additional := additional })
      else some (invs3, classifyTx cfg tx)
    | none => some (invs3, classifyTx cfg tx)

def pushOut (acc : RecRes) (out : TxOut) : RecRes :=
  match out with
  | .matchedOut m => { acc with matched := acc.matched ++ [m] }
  | .missingOut t => { acc with missing := acc.missing ++ [t] }
  | .exemptOut e => { acc with exempt := acc.exempt ++ [e] }

/-- The main loop: transactions in file order; positive (incoming)
amounts are skipped outright (`continue`). -/
def runGo (cfg : List ExRule) : List Tx → List InvRow → RecRes → Option (RecRes × List InvRow)
  | [], invs, acc => some (acc, invs)
  | tx :: rest, invs, acc =>
    if Q.lt 0 tx.amount then runGo cfg rest invs acc
    else
      match processTx cfg invs tx with
      | none => none
      | some (invs', out) => runGo cfg rest invs' (pushOut acc out)

/-- `reconcileTransactions` (with `skipSearch = true`: the Gmail
recovery hook of the non-skip branch is an external collaborator that
only annotates already-classified results and never changes the
partition, so it is out of this model's scope). -/
def reconcileTransactions (cfg : List ExRule) (txs : List Tx) (invs : List InvRow) :
    Option (RecRes × List InvRow) :=
  runGo cfg txs invs ⟨[], [], []⟩

def getMatched (l : List InvRow) (i : Nat) : Bool :=
  match l[i]? with
  | some v => v.matched
  | none => false

/-! ## Statement parsers (`src/bank_parser.js`) -/

def jsStartsWith (s p : String) : Bool := headMatch p.data s.data

/-- Delimited-text dialect (`parseBankStatement`), one call per input
line: blank lines are skipped, the header is detected by two known
column tokens, rows with fewer than 9 comma-separated tokens are
dropped, columns 0–6 and the final balance column are positional, and
everything strictly between column 7 and the last token is rejoined
with commas into the title.  The pushed object carries no `type`
property (modelled as `""`). -/
def bankGo : List String → Bool → List Tx
  | [], _ => []
  | line :: rest, isHeader =>
    if jsTrim line = "" then bankGo rest isHeader
    else if jsIncludes line "Data księgowania" && jsIncludes line "Kwota" then
      bankGo rest false
    else if isHeader then bankGo rest isHeader
    else
      let parts := jsSplit line ','
      if parts.length < 9 then bankGo rest isHeader
      else
        { date := parts.getD 1 "",
          amount := (parseFloatQ (parts.getD 3 "")).getD 0,
          currency := parts.getD 4 "",
          counterparty := parts.getD 5 "",
          description := joinComma ((parts.drop 7).dropLast),
          typ := "",
          raw := line } :: bankGo rest isHeader

def parseBankStatement (lines : List String) : List Tx := bankGo lines true

/-! MT940 dialect.  The win1250 byte decoding is I/O and the input is
modelled as the decoded line list. -/

def isUpperChar (c : Char) : Bool := 'A' ≤ c && c ≤ 'Z'

/-- Lexicographic comparison of character lists (JS string `<=`). -/
def lexLe : List Char → List Char → Bool
  | [], _ => true
  | _ :: _, [] => false
  | a :: as, b :: bs =>
    if a.toNat < b.toNat then true
    else if b.toNat < a.toNat then false
    else lexLe as bs

/-- One alternative of the `:61:` tail `([A-Z]{1,2})([0-9,]+)([A-Z])([A-Z]{3})`
with the debit/credit marker fixed to `k` letters. -/
def matchTailTry (k : Nat) (cs : List Char) : Option (String × String × String) :=
  let dc := cs.take k
  if dc.length = k && dc.all isUpperChar then
    let rest := cs.drop k
    let amt := rest.takeWhile fun c => isDigitChar c || c == ','
    if amt.isEmpty then none
    else
      match rest.drop amt.length with
      | c1 :: c2 :: c3 :: c4 :: _ =>
        if isUpperChar c1 && isUpperChar c2 && isUpperChar c3 && isUpperChar c4 then
          some (⟨dc⟩, ⟨amt⟩, ⟨[c2, c3, c4]⟩)
        else none
      | _ => none
  else none

/-- Greedy-with-backtracking `[A-Z]{1,2}`: two letters first, then one. -/
def matchTail (cs : List Char) : Option (String × String × String) :=
  match matchTailTry 2 cs with
  | some r => some r
  | none => matchTailTry 1 cs

/-- The `:61:` pattern `^(\d{6})(\d{4})?([A-Z]{1,2})([0-9,]+)([A-Z])([A-Z]{3})`
applied to the text after the tag: six date digits, an optional 4-digit
entry date (greedy, with backtracking), then the tail.  Returns
(YYMMDD, debit/credit marker, amount text, 3-letter type). -/
def match61 (raw : List Char) : Option (String × String × String × String) :=
  let d6 := raw.take 6
  if d6.length = 6 && d6.all isDigitChar then
    let after6 := raw.drop 6
    let with4 : Option (String × String × String) :=
      let d4 := after6.take 4
      if d4.length = 4 && d4.all isDigitChar then matchTail (after6.drop 4)
      else none
    match with4 with
    | some (dc, amt, ty) => some (⟨d6⟩, dc, amt, ty)
    | none =>
      match matchTail after6 with
      | some (dc, amt, ty) => some (⟨d6⟩, dc, amt, ty)
      | none => none
  else none

/-- Build the transaction of a matched `:61:` line: comma decimal,
debit markers negate, date reformatted `DD-MM-20YY`, currency fixed to
PLN, narrative fields filled in later by `parse86`. -/
def mk61Tx (line : String) (d6 dc amtStr ty : String) : Tx :=
  let amount0 := (parseFloatQ ⟨replaceFirstComma amtStr.data⟩).getD 0
  let amount := if jsIncludes dc "D" then Q.neg amount0 else amount0
  let yy : List Char := d6.data.take 2
  let mm : List Char := (d6.data.drop 2).take 2
  let dd : List Char := (d6.data.drop 4).take 2
  { date := ⟨dd⟩ ++ "-" ++ ⟨mm⟩ ++ "-" ++ ("20" ++ ⟨yy⟩),
    amount := amount,
    currency := "PLN",
    counterparty := "",
    description := "",
    typ := ty,
    raw := line }

/-- `parse86` sub-field scan: split the buffered narrative on `<`;
code `00` sets the operation description (last one wins), codes
`20`–`26` append to the description, `27`–`29` and `60`–`63` to the
counterparty. -/
def parse86Go : List String → String → String → String → String × String × String
  | [], td, d, cp => (td, d, cp)
  | part :: rest, td, d, cp =>
    if part.data.length < 2 then parse86Go rest td d cp
    else
      let code : String := ⟨part.data.take 2⟩
      let value := jsTrim ⟨part.data.drop 2⟩
      if code = "00" then parse86Go rest value d cp
      else if lexLe "20".data code.data && lexLe code.data "26".data then
        parse86Go rest td (d ++ value ++ " ") cp
      else if lexLe "27".data code.data && lexLe code.data "29".data then
        parse86Go rest td d (cp ++ value ++ " ")
      else if lexLe "60".data code.data && lexLe code.data "63".data then
        parse86Go rest td d (cp ++ value ++ " ")
      else parse86Go rest td d cp

/-- `parse86` applied to a transaction: description = trimmed/collapsed
`typeDesc + ' ' + description`, counterparty trimmed/collapsed. -/
def applyParse86 (t : Tx) (buf : String) : Tx :=
  let f := parse86Go (jsSplit buf '<') "" "" ""
  { t with
    description := collapseWs (jsTrim (f.1 ++ " " ++ f.2.1)),
    counterparty := collapseWs (jsTrim f.2.2) }

/-- The `parseMT940` line loop.  JS pushes the *same* transaction object
once per flush and `parse86` mutates it in place, so when a malformed
`:61:` line leaves `currentTx`/`buffer86` unreset the object ends up in
the array several times, all slots showing its final field values; the
state `(object, k)` counts the pushes already performed and the copies
are materialized with the final buffer when the object is replaced. -/
def mtGo : List String → Option (Tx × Nat) → String → List Tx → List Tx
  | [], cur, buf, done =>
    done ++ (match cur with
      | some (c, k) => List.replicate (k + 1) (applyParse86 c buf)
      | none => [])
  | line :: rest, cur, buf, done =>
    if jsStartsWith line ":61:" then
      match match61 (line.data.drop 4) with
      | some (d6, dc, amt, ty) =>
        let done' := done ++ (match cur with
          | some (c, k) => List.replicate (k + 1) (applyParse86 c buf)
          | none => [])
        mtGo rest (some (mk61Tx line d6 dc amt ty, 0)) "" done'
      | none => mtGo rest (cur.map fun p => (p.1, p.2 + 1)) buf done
    else if jsStartsWith line ":86:" then
      mtGo rest cur (buf ++ ⟨line.data.drop 4⟩) done
    else if cur.isSome && !jsStartsWith line ":" then
      mtGo rest cur (buf ++ line) done
    else if jsStartsWith line ":" then
      let done' := done ++ (match cur with
        | some (c, k) => List.replicate (k + 1) (applyParse86 c buf)
        | none => [])
      mtGo rest none "" done'
    else mtGo rest cur buf done

def parseMT940 (lines : List String) : List Tx := mtGo lines none "" []

/-! ## Duplicate scorer (`src/sheets.js`)

The file contains three versions of `isDuplicate` concatenated; the
claims cite the first scoring version (buyer tax ID unused) and the
later scoring variant (buyer NIP worth 10 points).  Both are embedded.
Registry rows are restricted to the cells the scorer reads
(`row[3]`, `row[4]`, `row[5]`, `row[8]`, `row[10]`). -/

structure DedupData where
  total_amount : String
  issue_date : String
  number : String
  seller_tax_id : String
  buyer_tax_id : String
  deriving DecidableEq, Repr

structure SheetRow where
  number : String
  issueDate : String
  amountCell : String
  sellerTaxId : String
  buyerTaxId : String
  deriving DecidableEq, Repr

/-- First scoring version (lines 45–85): amount ±0.05 = 40, exact date
string = 30, normalized number = 20, normalized seller NIP = 20; the
computed buyer normalization is deliberately unused. -/
def dedupScore (d : DedupData) (r : SheetRow) : Nat :=
  let s := if Q.lt (Q.abs (Q.sub (parseAmount r.amountCell) (parseAmount d.total_amount))) tol
           then 40 else 0
  let s := if r.issueDate = d.issue_date then s + 30 else s
  let s := if normalizeString d.number ≠ "" &&
              normalizeString r.number == normalizeString d.number then s + 20 else s
  let s := if normalizeString d.seller_tax_id ≠ "" &&
              normalizeString r.sellerTaxId == normalizeString d.seller_tax_id then s + 20 else s
  s

/-- The duplicate decision over the data rows: true at the first row
scoring at least 80. -/
def isDuplicate (d : DedupData) (rows : List SheetRow) : Bool :=
  rows.any fun r => dedupScore d r ≥ 80

/-- Later scoring variant (lines 219–291): same four components plus
normalized buyer NIP worth 10 points. -/
def dedupScoreV2 (d : DedupData) (r : SheetRow) : Nat :=
  let s := dedupScore d r
  if normalizeString d.buyer_tax_id ≠ "" &&
     normalizeString r.buyerTaxId == normalizeString d.buyer_tax_id then s + 10 else s

def isDuplicateV2 (d : DedupData) (rows : List SheetRow) : Bool :=
  rows.any fun r => dedupScoreV2 d r ≥ 80

/-! ## Auxiliary result-shape definitions used by the claims -/

def outTx : TxOut → Tx
  | .matchedOut m => m.transaction
  | .missingOut t => t
  | .exemptOut e => e.transaction

/-- How often transaction `t` occurs across the three output lists. -/
def countRes (r : RecRes) (t : Tx) : Nat :=
  (r.matched.map MatchRes.transaction).count t + r.missing.count t +
    (r.exempt.map ExemptRes.transaction).count t

def qi (n : Int) : Q := Q.mk n 1

/-! ## Concrete scenario data -/

/-- Scenario C transaction: −600.00 from the sellers' counterparty. -/
def c1tx : Tx :=
  { date := "20-11-2025", amount := qi (-600), currency := "PLN",
    counterparty := "Acme Corp", description := "", typ := "", raw := "" }

/-- Scenario C registry: exactly three unconsumed invoices of one seller
with amounts 100.00, 200.00, 300.00 (numbers shorter than 3 characters so
strategy 2 ignores them, as in the scenario no number is embedded). -/
def c1invs : List InvRow :=
  [ { number := "a", issueDate := "", amountCell := "100.00", sellerName := "Acme Corp" },
    { number := "b", issueDate := "", amountCell := "200.00", sellerName := "Acme Corp" },
    { number := "c", issueDate := "", amountCell := "300.00", sellerName := "Acme Corp" } ]

/-- C1: the code's actual Scenario C outcome — one Strategy-3 partial
match of score 70 on the 100.00 invoice, the other two untouched. -/
def c1res : RecRes :=
  { matched := [{ transaction := c1tx, invIdx := 0, score := 70, additional := [] }],
    missing := [], exempt := [] }

def c1fi : List InvRow :=
  [ { number := "a", issueDate := "", amountCell := "100.00", sellerName := "Acme Corp",
      matched := true, partFlag := true, notes := "Partial Match. Remaining: 500.00" },
    { number := "b", issueDate := "", amountCell := "200.00", sellerName := "Acme Corp" },
    { number := "c", issueDate := "", amountCell := "300.00", sellerName := "Acme Corp" } ]

/-- C1 counterexample: on the Scenario C input no MatchResult has score
95 or two additional invoices, and the 200.00 and 300.00 invoices end
the run unconsumed — contrary to the claimed subset-sum outcome. -/
theorem c1_scenarioC_counterexample :
    (reconcileTransactions [] [c1tx] c1invs).map
        (fun p => (p.1.matched.all fun m => m.score != 95 && m.additional.length != 2,
                   getMatched p.2 0, getMatched p.2 1, getMatched p.2 2)) =
      some (true, true, false, false) := by decide

/-- C1 (amended): on Scenario C the run instead produces exactly one
MatchResult, a Strategy-3 partial match with score 70 referencing only
the 100.00 invoice (no additional invoices), which ends consumed and
flagged partial with the remaining 500.00 noted, while the 200.00 and
300.00 invoices end the run unconsumed; Strategy 4 is never reached. -/
theorem c1_scenarioC_amended :
    reconcileTransactions [] [c1tx] c1invs = some (c1res, c1fi) := by decide

/-- A positive-amount (incoming) transaction. -/
def c2tx : Tx :=
  { date := "", amount := qi 5, currency := "", counterparty := "",
    description := "", typ := "", raw := "" }

/-- C2 counterexample: a positive-amount transaction occurs in none of
matched/missing/exempt (the loop `continue`s before classifying), not in
exactly one of them. -/
theorem c2_positive_skipped_counterexample :
    (reconcileTransactions [] [c2tx] []).map (fun p => countRes p.1 c2tx) = some 0 := by
  decide

/-! ## C4: MT940 malformed `:61:` line -/

/-- MT940 input whose third line is a `:61:` line that fails the
transaction pattern. -/
def mt940Input : List String :=
  [ ":61:2511071107DN3000,00NTRFNONREF//x", ":86:<20Payment one",
    ":61:garbage", ":86:<20extra",
    ":61:2511081108DN100,00NTRFNONREF//y", ":86:<20Payment two" ]

/-- The transaction of the first (well-formed) `:61:` line as the code
finally leaves it: its narrative also swallowed the `:86:` content that
followed the malformed line. -/
def mt940Tx1 : Tx :=
  { date := "07-11-2025", amount := Q.mk (-300000) 100, currency := "PLN",
    counterparty := "", description := "Payment one extra", typ := "TRF",
    raw := ":61:2511071107DN3000,00NTRFNONREF//x" }

def mt940Tx2 : Tx :=
  { date := "08-11-2025", amount := Q.mk (-10000) 100, currency := "PLN",
    counterparty := "", description := "Payment two", typ := "TRF",
    raw := ":61:2511081108DN100,00NTRFNONREF//y" }

/-- C4: a malformed `:61:` line raises no error, but because `currentTx`
and `buffer86` are not reset, the preceding well-formed transaction is
pushed twice (the same object, so both slots show its final state) and
its description absorbs the narrative that followed the malformed line:
the claimed "every well-formed transaction appears exactly once and
unaffected" fails. -/
theorem c4_malformed61_duplicates :
    parseMT940 mt940Input = [mt940Tx1, mt940Tx1, mt940Tx2] ∧
    mt940Tx1.description = "Payment one extra" := by decide

/-! ## C5: the delimited parser drops the `type` column -/

def csvHeader : String :=
  "Data księgowania,Data operacji,Rodzaj operacji,Kwota,Waluta,Dane kontrahenta,Numer rachunku kontrahenta,Tytuł operacji,Saldo po operacji"

/-- A fee row whose type column carries the bank-fee label. -/
def csvFeeRow : String :=
  "20-11-2025,20-11-2025,Opłaty i prowizje,-5.00,PLN,BANK,123,prowizja za przelew,100.00"

/-- The transaction the delimited parser produces for the fee row: the
parsed type column (`parts[2]`) is not part of the pushed object. -/
def csvFeeTx : Tx :=
  { date := "20-11-2025", amount := Q.mk (-500) 100, currency := "PLN",
    counterparty := "BANK", description := "prowizja za przelew", typ := "",
    raw := csvFeeRow }

/-- C5: the reconciliation fallback classifies a transaction carrying
`type = "Opłaty i prowizje"` as exempt `FEES` — but the delimited-text
parser drops the type column it has just parsed, so the very same fee
row comes out of the PBS pipeline without a type and is classified
missing, not exempt. -/
theorem c5_fee_type_dropped :
    parseBankStatement [csvHeader, csvFeeRow] = [csvFeeTx] ∧
    csvFeeTx.typ = "" ∧
    reconcileTransactions [] [csvFeeTx] [] =
      some ({ matched := [], missing := [csvFeeTx], exempt := [] }, []) ∧
    reconcileTransactions [] [{ csvFeeTx with typ := "Opłaty i prowizje" }] [] =
      some ({ matched := [], missing := [],
              exempt := [{ transaction := { csvFeeTx with typ := "Opłaty i prowizje" },
                           reason := "FEES" }] }, []) := by decide

/-! ## C7: Scenario A delimited parse -/

def rowA : String :=
  "20-11-2025,20-11-2025,Przelewy wychodzące,-1204.63,PLN,PKO Leasing S.A.|ul. Świętokrzyska 36,041...,leasing umowa nr 25/021345, Nr faktury: LM/25/09/132141, Kwota VAT: 22 5,26, Identyfikator: 7251735694,21075.58"

def rowATx : Tx :=
  { date := "20-11-2025", amount := Q.mk (-120463) 100, currency := "PLN",
    counterparty := "PKO Leasing S.A.|ul. Świętokrzyska 36",
    description := "leasing umowa nr 25/021345, Nr faktury: LM/25/09/132141, Kwota VAT: 22 5,26, Identyfikator: 7251735694",
    typ := "", raw := rowA }

set_option maxRecDepth 10000 in
/-- C7: Scenario A parses to amount −1204.63, the pipe-bearing
counterparty column, and the comma-rejoined description (tokens strictly
between column 7 and the final balance token). -/
theorem c7_scenarioA_parse :
    parseBankStatement [csvHeader, rowA] = [rowATx] ∧
    rowATx.amount = Q.mk (-120463) 100 ∧
    rowATx.counterparty = "PKO Leasing S.A.|ul. Świętokrzyska 36" ∧
    rowATx.description = "leasing umowa nr 25/021345, Nr faktury: LM/25/09/132141, Kwota VAT: 22 5,26, Identyfikator: 7251735694" := by
  decide

/-! ## C6: strategy 2 -/

/-- Transaction whose text contains `1234` but not `12-34`; its amount
differs from the invoice amount by 30 (inside strategy 2's tolerance but
outside strategy 1's 0.05). -/
def c6tx : Tx :=
  { date := "", amount := qi (-530), currency := "PLN",
    counterparty := "somebuyer", description := "payment 1234", typ := "", raw := "" }

/-- Unconsumed invoice with number `12-34` (normalized `1234`, length 4)
and an exactly matching amount. -/
def c6inv : InvRow :=
  { number := "12-34", issueDate := "", amountCell := "500.00", sellerName := "" }

/-- C6 counterexample: the claim's hypotheses hold — Strategy 1 finds
nothing, the invoice's normalized number has length ≥ 3 and occurs in
the transaction text, and the amount condition is met — yet the code
leaves the transaction missing instead of matching it at 85: the code's
normalized branch only fires for numbers longer than 5 characters. -/
theorem c6_strategy2_counterexample :
    (normalizeString c6inv.number).length ≥ 3 ∧
    jsIncludes (normalizeString (c6tx.counterparty ++ " " ++ c6tx.description))
      (normalizeString c6inv.number) = true ∧
    jsIncludes (jsToLower (c6tx.counterparty ++ " " ++ c6tx.description))
      (normalizeString c6inv.number) = true ∧
    s2AmountOk c6tx.amount (parseAmount c6inv.amountCell) = true ∧
    (strat1 c6tx.amount (parseDate c6tx.date)
      (jsToLower (c6tx.counterparty ++ " " ++ c6tx.description)) [c6inv]).1 = none ∧
    reconcileTransactions [] [c6tx] [c6inv] =
      some ({ matched := [], missing := [c6tx], exempt := [] }, [c6inv]) := by decide

/-- The acceptance predicate of the code's strategy 2 for one enumerated
invoice: unconsumed, trimmed/lowercased number of length ≥ 3, and either
the verbatim containment branch or (only when verbatim fails and the
number is longer than 5) the alphanumeric-normalized branch, each under
the `diff < 100 ∨ diff < 10%` amount condition. -/
def s2Hit (txDesc : String) (txAmount : Q) (p : Nat × InvRow) : Bool :=
  !p.2.matched &&
    (let invNumber := jsToLower (jsTrim p.2.number)
     decide (invNumber.length ≥ 3) &&
       ((jsIncludes txDesc invNumber && s2AmountOk txAmount (parseAmount p.2.amountCell)) ||
        (!jsIncludes txDesc invNumber && decide (invNumber.length > 5) &&
          jsIncludes (keepAlnum txDesc) (keepAlnum invNumber) &&
          s2AmountOk txAmount (parseAmount p.2.amountCell))))

/-! ## C9: buyer tax ID and the dedup verdict -/

def c9cand : DedupData :=
  { total_amount := "100", issue_date := "2023-01-15", number := "X1",
    seller_tax_id := "111", buyer_tax_id := "222" }

def c9row : SheetRow :=
  { number := "ZZZ", issueDate := "2023-01-15", amountCell := "100",
    sellerTaxId := "999", buyerTaxId := "222" }

/-- C9 counterexample: under the later scoring variant of `isDuplicate`
(buyer NIP worth 10 points), two candidates that differ only in
`buyer_tax_id` get different verdicts against the same registry rows
(40 amount + 30 date + 10 buyer = 80 versus 70). -/
theorem c9_buyer_dependent_counterexample :
    c9cand = { { c9cand with buyer_tax_id := "333" } with buyer_tax_id := "222" } ∧
    isDuplicateV2 c9cand [c9row] = true ∧
    isDuplicateV2 { c9cand with buyer_tax_id := "333" } [c9row] = false := by decide

/-- C9 (amended): the first scoring version of `isDuplicate` is
independent of every buyer tax ID — rewriting the candidate's
`buyer_tax_id` and each row's buyer column arbitrarily never changes the
verdict; only the later variant in the file (buyer NIP +10) depends on
them. -/
theorem c9_buyer_independent_amended (d : DedupData) (b : String)
    (f : SheetRow → String) (rows : List SheetRow) :
    isDuplicate { d with buyer_tax_id := b } (rows.map fun r => { r with buyerTaxId := f r }) =
      isDuplicate d rows := by
  induction rows with
  | nil => rfl
  | cons r rest ih =>
    simp only [List.map_cons, isDuplicate, List.any_cons] at ih ⊢
    exact congrArg (_ || ·) ih

/-! ## C8: dedup score invariant -/

/-- The four field agreements of the claim: amount within 0.05, exact
date string equality, normalized number equality, normalized seller tax
ID equality. -/
def agreeCount (d : DedupData) (r : SheetRow) : Nat :=
  (if Q.lt (Q.abs (Q.sub (parseAmount r.amountCell) (parseAmount d.total_amount))) tol
   then 1 else 0) +
  (if r.issueDate = d.issue_date then 1 else 0) +
  (if normalizeString r.number = normalizeString d.number then 1 else 0) +
  (if normalizeString r.sellerTaxId = normalizeString d.seller_tax_id then 1 else 0)

/-- C8: a dedup score of at least 80 forces at least two of the four
fields to agree after normalization (in fact at least three: the
components are 40/30/20/20). -/
theorem c8_dedup_score_invariant (d : DedupData) (r : SheetRow)
    (h : dedupScore d r ≥ 80) : 2 ≤ agreeCount d r := by
  unfold dedupScore at h
  unfold agreeCount
  by_cases ha : Q.lt (Q.abs (Q.sub (parseAmount r.amountCell) (parseAmount d.total_amount))) tol = true <;>
    by_cases hd : r.issueDate = d.issue_date <;>
      by_cases hn2 : normalizeString r.number = normalizeString d.number <;>
        by_cases hs2 : normalizeString r.sellerTaxId = normalizeString d.seller_tax_id <;>
          by_cases hn1 : normalizeString d.number = "" <;>
            by_cases hs1 : normalizeString d.seller_tax_id = "" <;>
              simp_all

def c8cand : DedupData :=
  { total_amount := "100.00", issue_date := "2023-01-15", number := "F/2023/01",
    seller_tax_id := "1234567890", buyer_tax_id := "" }

def c8row : SheetRow :=
  { number := "F-2023-01", issueDate := "2023-01-15", amountCell := "100",
    sellerTaxId := "123-456-78-90", buyerTaxId := "" }

/-- C8 witness: the Scenario-D pair scores 110 ≥ 80 and indeed agrees on
all four fields. -/
theorem c8_dedup_score_invariant_witness : 2 ≤ agreeCount c8cand c8row :=
  c8_dedup_score_invariant c8cand c8row (by decide)

/-! ## Invariant machinery for the matcher -/

theorem getMatched_eq_false_of_none (l : List InvRow) (i : Nat) (h : l[i]? = none) :
    getMatched l i = false := by
  unfold getMatched
  rw [h]

theorem getMatched_lt (l : List InvRow) (i : Nat) (h : getMatched l i = true) :
    i < l.length := by
  unfold getMatched at h
  by_cases hi : i < l.length
  · exact hi
  · rw [List.getElem?_eq_none (by omega)] at h
    exact absurd h (by simp)

theorem setMatched_length (l : List InvRow) (j : Nat) :
    (setMatched l j).length = l.length := by
  unfold setMatched
  cases h : l[j]? <;> simp [List.length_set]

theorem getMatched_setMatched (l : List InvRow) (j i : Nat) :
    getMatched (setMatched l j) i =
      if i = j ∧ j < l.length then true else getMatched l i := by
  unfold setMatched getMatched
  cases h : l[j]? with
  | none =>
    have hj : ¬ j < l.length := by
      intro hlt
      rw [List.getElem?_eq_getElem hlt] at h
      cases h
    simp [hj]
  | some v =>
    have hj : j < l.length := by
      by_contra hge
      rw [List.getElem?_eq_none (by omega)] at h
      cases h
    by_cases hij : i = j
    · subst hij
      simp [List.getElem?_set_self', hj, List.getElem?_eq_getElem hj] at h ⊢
    · simp [List.getElem?_set_ne (fun hh => hij hh.symm), hij]

theorem markMatched_length (idxs : List Nat) : ∀ (l : List InvRow),
    (markMatched l idxs).length = l.length := by
  induction idxs with
  | nil => intro l; rfl
  | cons j rest ih =>
    intro l
    show (markMatched (setMatched l j) rest).length = l.length
    rw [ih (setMatched l j), setMatched_length]

theorem getMatched_markMatched (idxs : List Nat) : ∀ (l : List InvRow) (i : Nat),
    (∀ j ∈ idxs, j < l.length) →
    getMatched (markMatched l idxs) i = (getMatched l i || idxs.contains i) := by
  induction idxs with
  | nil => intro l i _; simp [markMatched]
  | cons j rest ih =>
    intro l i hb
    show getMatched (markMatched (setMatched l j) rest) i = _
    rw [ih (setMatched l j) i (by
      intro k hk
      rw [setMatched_length]
      exact hb k (List.mem_cons_of_mem _ hk))]
    rw [getMatched_setMatched]
    have hj : j < l.length := hb j (List.mem_cons_self _ _)
    by_cases hij : i = j
    · subst hij
      simp [hj]
    · simp [hij]

theorem lt_of_getElem?_some {l : List InvRow} {i : Nat} {v : InvRow}
    (h : l[i]? = some v) : i < l.length := by
  by_contra hge
  rw [List.getElem?_eq_none (by omega)] at h
  cases h

theorem getMatched_of_getElem? {l : List InvRow} {i : Nat} {v : InvRow}
    (h : l[i]? = some v) : getMatched l i = v.matched := by
  unfold getMatched
  rw [h]

/-- One strategy-1 step either keeps the accumulator or selects the
enumerated invoice, which it only does when the invoice is unconsumed. -/
theorem strat1Step_cases (a : Q) (d : Option Int) (t : String)
    (best : Option Nat × Nat) (p : Nat × InvRow) (k : Nat)
    (h : (strat1Step a d t best p).1 = some k) :
    best.1 = some k ∨ (k = p.1 ∧ p.2.matched = false) := by
  unfold strat1Step at h
  split at h
  · exact Or.inl h
  · split at h
    · split at h
      · right
        cases h
        rename_i hm _ _
        exact ⟨rfl, by simpa using hm⟩
      · exact Or.inl h
    · exact Or.inl h

theorem strat1_fold_sound (a : Q) (d : Option Int) (t : String) (invs : List InvRow) :
    ∀ (l : List (Nat × InvRow)) (best : Option Nat × Nat),
      (∀ p ∈ l, invs[p.1]? = some p.2) →
      (∀ k, best.1 = some k → getMatched invs k = false ∧ k < invs.length) →
      ∀ k, (l.foldl (strat1Step a d t) best).1 = some k →
        getMatched invs k = false ∧ k < invs.length := by
  intro l
  induction l with
  | nil => intro best _ hbest k hk; exact hbest k hk
  | cons p rest ih =>
    intro best hmem hbest k hk
    refine ih (strat1Step a d t best p) (fun q hq => hmem q (List.mem_cons_of_mem _ hq))
      (fun k' hk' => ?_) k hk
    rcases strat1Step_cases a d t best p k' hk' with hold | ⟨rfl, hfresh⟩
    · exact hbest k' hold
    · have hp := hmem p (List.mem_cons_self _ _)
      exact ⟨(getMatched_of_getElem? hp).trans hfresh, lt_of_getElem?_some hp⟩

theorem strat1_sound (a : Q) (d : Option Int) (t : String) (invs : List InvRow) (k : Nat)
    (h : (strat1 a d t invs).1 = some k) :
    getMatched invs k = false ∧ k < invs.length := by
  refine strat1_fold_sound a d t invs invs.enum (none, 0) ?_ (by simp) k h
  intro p hp
  exact List.mem_enum_iff_getElem?.mp hp

/-- The code's strategy 2 is the first-match scan of `s2Hit`. -/
theorem strat2_eq_find (txDesc : String) (txAmount : Q) :
    ∀ l : List (Nat × InvRow),
      strat2 txDesc txAmount l = (l.find? (s2Hit txDesc txAmount)).map Prod.fst
  | [] => rfl
  | (i, inv) :: rest => by
    have ih := strat2_eq_find txDesc txAmount rest
    by_cases hm : inv.matched = true
    · simp [strat2, s2Hit, hm, ih]
    · by_cases hlen : (jsToLower (jsTrim inv.number)).length < 3
      · simp [strat2, s2Hit, hm, hlen, ih, Nat.not_le.mpr hlen]
      · have hge : 3 ≤ (jsToLower (jsTrim inv.number)).length := Nat.not_lt.mp hlen
        by_cases hinc : jsIncludes txDesc (jsToLower (jsTrim inv.number)) = true
        · by_cases hamt : s2AmountOk txAmount (parseAmount inv.amountCell) = true
          · simp [strat2, s2Hit, hm, hlen, hinc, hamt, hge]
          · simp [strat2, s2Hit, hm, hlen, hinc, hamt, hge, ih]
        · by_cases h5 : 5 < (jsToLower (jsTrim inv.number)).length
          · by_cases hninc : jsIncludes (keepAlnum txDesc)
                (keepAlnum (jsToLower (jsTrim inv.number))) = true
            · by_cases hamt : s2AmountOk txAmount (parseAmount inv.amountCell) = true
              · simp [strat2, s2Hit, hm, hlen, hinc, h5, hninc, hamt, hge]
              · simp [strat2, s2Hit, hm, hlen, hinc, h5, hninc, hamt, hge, ih]
            · simp [strat2, s2Hit, hm, hlen, hinc, h5, hninc, hge, ih]
          · simp [strat2, s2Hit, hm, hlen, hinc, h5, hge, ih]

theorem strat2_sound (txDesc : String) (txAmount : Q) (invs : List InvRow) (k : Nat)
    (h : strat2 txDesc txAmount invs.enum = some k) :
    getMatched invs k = false ∧ k < invs.length := by
  rw [strat2_eq_find] at h
  cases hf : invs.enum.find? (s2Hit txDesc txAmount) with
  | none => rw [hf] at h; cases h
  | some p =>
    rw [hf] at h
    cases h
    have hp := List.mem_enum_iff_getElem?.mp (List.mem_of_find?_eq_some hf)
    have hhit := List.find?_some hf
    unfold s2Hit at hhit
    rw [Bool.and_eq_true] at hhit
    have hm : p.2.matched = false := by
      cases hmm : p.2.matched
      · rfl
      · rw [hmm] at hhit; simp at hhit
    exact ⟨(getMatched_of_getElem? hp).trans hm, lt_of_getElem?_some hp⟩

theorem getMatched_set_preserve (cur invs0 : List InvRow) (i : Nat) (v inv : InvRow)
    (hlen : cur.length = invs0.length) (hv : v.matched = inv.matched)
    (h0 : invs0[i]? = some inv) (hprof : ∀ j, getMatched cur j = getMatched invs0 j) :
    ∀ j, getMatched (cur.set i v) j = getMatched invs0 j := by
  intro j
  have hi : i < cur.length := hlen ▸ lt_of_getElem?_some h0
  by_cases hij : j = i
  · subst hij
    have : (cur.set j v)[j]? = some v := by
      simp [List.getElem?_set_self', hi, List.getElem?_eq_getElem hi]
    rw [getMatched_of_getElem? this, hv, (getMatched_of_getElem? h0).symm]
  · have hne : (cur.set i v)[j]? = cur[j]? := List.getElem?_set_ne (fun hh => hij hh.symm)
    have hpj := hprof j
    unfold getMatched at hpj ⊢
    rw [hne]
    exact hpj

theorem strat3_spec (tc td : String) (a : Q) (invs0 : List InvRow) :
    ∀ (l : List (Nat × InvRow)) (best : Option Nat) (score : Nat) (cur : List InvRow),
      (∀ p ∈ l, invs0[p.1]? = some p.2) →
      cur.length = invs0.length →
      (∀ i, getMatched cur i = getMatched invs0 i) →
      (∀ k, best = some k → getMatched invs0 k = false ∧ k < invs0.length) →
      (strat3 tc td a l best score cur).2.2.length = invs0.length ∧
      (∀ i, getMatched (strat3 tc td a l best score cur).2.2 i = getMatched invs0 i) ∧
      (∀ k, (strat3 tc td a l best score cur).1 = some k →
        getMatched invs0 k = false ∧ k < invs0.length) := by
  intro l
  induction l with
  | nil =>
    intro best score cur _ hlen hprof hbest
    exact ⟨hlen, hprof, hbest⟩
  | cons p rest ih =>
    intro best score cur hmem hlen hprof hbest
    obtain ⟨i, inv⟩ := p
    have hp := hmem (i, inv) (List.mem_cons_self _ _)
    have hrest : ∀ q ∈ rest, invs0[q.1]? = some q.2 :=
      fun q hq => hmem q (List.mem_cons_of_mem _ hq)
    have hfresh : getMatched invs0 i = false → ∀ k, some i = some k →
        getMatched invs0 k = false ∧ k < invs0.length := by
      intro hf k hk
      cases hk
      exact ⟨hf, lt_of_getElem?_some hp⟩
    by_cases hm : inv.matched = true
    · simpa [strat3, hm] using ih best score cur hrest hlen hprof hbest
    · by_cases hsell : jsToLower inv.sellerName = ""
      · simpa [strat3, hm, hsell] using ih best score cur hrest hlen hprof hbest
      · have hm' : getMatched invs0 i = false := by
          rw [getMatched_of_getElem? hp]
          simpa using hm
        by_cases htr : s3Trigger tc td (jsToLower inv.sellerName) = true
        · by_cases hclose : (Q.lt (Q.abs (Q.sub (Q.abs a) (Q.abs (parseAmount inv.amountCell)))) 50 ||
              Q.lt (Q.abs (Q.sub (Q.abs a) (Q.abs (parseAmount inv.amountCell))))
                (Q.mul (Q.abs (parseAmount inv.amountCell)) (Q.mk 1 20))) = true
          · refine ⟨?_, ?_, ?_⟩ <;>
              simp only [strat3, hm, hsell, htr, hclose, Bool.false_eq_true, if_false, if_true]
            · exact hlen
            · exact hprof
            · exact hfresh hm'
          · by_cases hover : Q.lt (Q.add (Q.abs (parseAmount inv.amountCell)) 50) (Q.abs a) = true
            · by_cases hlow : score < 70
              · have hcur' := getMatched_set_preserve cur invs0 i
                  { inv with
                    partFlag := true,
                    notes := "Partial Match. Remaining: " ++
                      toFixed2 (Q.sub (Q.abs a) (Q.abs (parseAmount inv.amountCell))) }
                  inv hlen rfl hp hprof
                have hlen' : (cur.set i { inv with
                    partFlag := true,
                    notes := "Partial Match. Remaining: " ++
                      toFixed2 (Q.sub (Q.abs a) (Q.abs (parseAmount inv.amountCell))) }).length =
                    invs0.length := by
                  rw [List.length_set]; exact hlen
                simpa [strat3, hm, hsell, htr, hclose, hover, hlow] using
                  ih (some i) 70 _ hrest hlen' hcur' (hfresh hm')
              · simpa [strat3, hm, hsell, htr, hclose, hover, hlow] using
                  ih best score cur hrest hlen hprof hbest
            · simpa [strat3, hm, hsell, htr, hclose, hover] using
                ih best score cur hrest hlen hprof hbest
        · simpa [strat3, hm, hsell, htr] using ih best score cur hrest hlen hprof hbest

theorem findSubsetSumGo_sublist (target tolr : Q) :
    ∀ (rest : List (Nat × InvRow)) (sum : Q) (cur r : List Nat),
      findSubsetSumGo target tolr rest sum cur = some r →
      ∃ t, r = cur ++ t ∧ t.Sublist (rest.map Prod.fst) := by
  intro rest
  induction rest with
  | nil =>
    intro sum cur r h
    unfold findSubsetSumGo at h
    split at h
    · cases h
      exact ⟨[], by simp, by simp⟩
    · cases h
  | cons p rest' ih =>
    intro sum cur r h
    obtain ⟨i, inv⟩ := p
    unfold findSubsetSumGo at h
    split at h
    · cases h
      exact ⟨[], by simp, by simp⟩
    · split at h
      · cases h
      · rename_i xs i2 inv2 rest2 heq
        injection heq with e1 e2
        cases e1
        cases e2
        split at h
        · cases h
        cases hrec : findSubsetSumGo target tolr rest'
            (sum.add (parseAmount inv.amountCell).abs) (cur ++ [i]) with
        | some r' =>
          rw [hrec] at h
          cases h
          obtain ⟨t, ht, hsub⟩ := ih _ _ _ hrec
          refine ⟨i :: t, by simp [ht], ?_⟩
          simpa using List.Sublist.cons₂ i hsub
        | none =>
          rw [hrec] at h
          obtain ⟨t, ht, hsub⟩ := ih _ _ _ h
          exact ⟨t, ht, List.Sublist.cons i hsub⟩

theorem s4Candidates_mem (tc : String) (invs3 : List InvRow) (p : Nat × InvRow)
    (hp : p ∈ s4Candidates tc invs3) :
    invs3[p.1]? = some p.2 ∧ p.2.matched = false := by
  unfold s4Candidates at hp
  have hmem := List.mem_filter.mp hp
  refine ⟨List.mem_enum_iff_getElem?.mp hmem.1, ?_⟩
  have := hmem.2
  rw [Bool.and_eq_true] at this
  cases hmm : p.2.matched
  · rfl
  · rw [hmm] at this; simp at this

theorem s4Candidates_fst_nodup (tc : String) (invs3 : List InvRow) :
    ((s4Candidates tc invs3).map Prod.fst).Nodup := by
  have hsub : (s4Candidates tc invs3).Sublist invs3.enum := List.filter_sublist _
  have : ((s4Candidates tc invs3).map Prod.fst).Sublist (invs3.enum.map Prod.fst) :=
    hsub.map Prod.fst
  rw [List.enum_map_fst] at this
  exact this.nodup (List.nodup_range _)

theorem selectMatch_spec (invs : List InvRow) (tx : Tx) (b : Option Nat) (s : Nat)
    (add : List Nat) (invs3 : List InvRow)
    (h : selectMatch invs tx = some (b, s, add, invs3)) :
    invs3.length = invs.length ∧
    (∀ i, getMatched invs3 i = getMatched invs i) ∧
    (∀ k, b = some k → (k :: add).Nodup ∧
      ∀ j ∈ k :: add, getMatched invs j = false ∧ j < invs.length) := by
  unfold selectMatch at h
  cases h1 : (strat1 tx.amount (parseDate tx.date)
      (jsToLower (tx.counterparty ++ " " ++ tx.description)) invs).1 with
  | some i =>
    simp only [h1] at h
    cases h
    refine ⟨rfl, fun _ => rfl, fun k hk => ?_⟩
    cases hk
    have := strat1_sound _ _ _ _ _ h1
    exact ⟨by simp, by simpa using this⟩
  | none =>
    simp only [h1] at h
    cases h2 : strat2 (jsToLower (tx.counterparty ++ " " ++ tx.description))
        tx.amount invs.enum with
    | some i =>
      simp only [h2] at h
      cases h
      refine ⟨rfl, fun _ => rfl, fun k hk => ?_⟩
      cases hk
      have := strat2_sound _ _ _ _ h2
      exact ⟨by simp, by simpa using this⟩
    | none =>
      simp only [h2] at h
      have hs3 := strat3_spec (jsToLower tx.counterparty) (jsToLower tx.description)
        tx.amount invs invs.enum none
        ((strat1 tx.amount (parseDate tx.date)
          (jsToLower (tx.counterparty ++ " " ++ tx.description)) invs).2) invs
        (fun p hp => List.mem_enum_iff_getElem?.mp hp) rfl (fun _ => rfl) (by simp)
      cases hr3 : strat3 (jsToLower tx.counterparty) (jsToLower tx.description)
          tx.amount invs.enum none
          ((strat1 tx.amount (parseDate tx.date)
            (jsToLower (tx.counterparty ++ " " ++ tx.description)) invs).2) invs with
      | mk b3 rest3 =>
      obtain ⟨s3, cur3⟩ := rest3
      rw [hr3] at h hs3
      obtain ⟨hlen3, hprof3, hb3⟩ := hs3
      cases b3 with
      | some i =>
        simp only at h
        cases h
        refine ⟨hlen3, hprof3, fun k hk => ?_⟩
        cases hk
        have := hb3 i rfl
        exact ⟨by simp, by simpa using this⟩
      | none =>
        simp only at h
        by_cases hsz : (1 < (s4Candidates (jsToLower tx.counterparty) cur3).length &&
            (s4Candidates (jsToLower tx.counterparty) cur3).length < 10) = true
        · rw [if_pos hsz] at h
          cases hcombo : findSubsetSum (s4Candidates (jsToLower tx.counterparty) cur3)
              (Q.abs tx.amount) with
          | none =>
            rw [hcombo] at h
            cases h
            exact ⟨hlen3, hprof3, fun k hk => by cases hk⟩
          | some combo =>
            rw [hcombo] at h
            cases combo with
            | nil => cases h
            | cons c restc =>
              cases h
              refine ⟨hlen3, hprof3, fun k hk => ?_⟩
              cases hk
              obtain ⟨t, ht, hsub⟩ := findSubsetSumGo_sublist _ _ _ _ _ _ hcombo
              rw [List.nil_append] at ht
              subst ht
              constructor
              · exact hsub.nodup (s4Candidates_fst_nodup _ _)
              · intro j hj
                have hj' : j ∈ (s4Candidates (jsToLower tx.counterparty) invs3).map Prod.fst :=
                  hsub.mem hj
                obtain ⟨p, hp, hpe⟩ := List.mem_map.mp hj'
                obtain ⟨hget, hunm⟩ := s4Candidates_mem _ _ _ hp
                subst hpe
                constructor
                · rw [← hprof3 p.1]
                  exact (getMatched_of_getElem? hget).trans hunm
                · rw [← hlen3]
                  exact lt_of_getElem?_some hget
        · rw [if_neg hsz] at h
          cases h
          exact ⟨hlen3, hprof3, fun k hk => by cases hk⟩

theorem outTx_classify (cfg : List ExRule) (tx : Tx) : outTx (classifyTx cfg tx) = tx := by
  unfold classifyTx
  cases exemptCategory cfg tx <;> rfl

theorem classify_ne_matched (cfg : List ExRule) (tx : Tx) (m : MatchRes) :
    classifyTx cfg tx ≠ TxOut.matchedOut m := by
  unfold classifyTx
  cases exemptCategory cfg tx <;> intro hc <;> cases hc

theorem processTx_spec (cfg : List ExRule) (invs : List InvRow) (tx : Tx)
    (invs' : List InvRow) (out : TxOut)
    (h : processTx cfg invs tx = some (invs', out)) :
    invs'.length = invs.length ∧ outTx out = tx ∧
    ((∃ m, out = TxOut.matchedOut m ∧ m.transaction = tx ∧
        m.refs.Nodup ∧ (∀ j ∈ m.refs, getMatched invs j = false ∧ j < invs.length) ∧
        (∀ i, getMatched invs' i = (getMatched invs i || m.refs.contains i))) ∨
      ((∀ m, out ≠ TxOut.matchedOut m) ∧ (∀ i, getMatched invs' i = getMatched invs i))) := by
  unfold processTx at h
  cases hsel : selectMatch invs tx with
  | none => rw [hsel] at h; cases h
  | some q =>
    obtain ⟨b, s, add, invs3⟩ := q
    rw [hsel] at h
    obtain ⟨hlen3, hprof3, hfresh⟩ := selectMatch_spec invs tx b s add invs3 hsel
    cases b with
    | none =>
      simp only at h
      cases h
      exact ⟨hlen3, outTx_classify cfg tx,
        Or.inr ⟨fun m => classify_ne_matched cfg tx m, hprof3⟩⟩
    | some bi =>
      simp only at h
      by_cases hsc : s ≥ 70
      · rw [if_pos hsc] at h
        cases h
        obtain ⟨hnodup, hjs⟩ := hfresh bi rfl
        have hbound : ∀ j ∈ bi :: add, j < invs3.length := by
          intro j hj
          rw [hlen3]
          exact (hjs j hj).2
        refine ⟨(markMatched_length _ _).trans hlen3, rfl,
          Or.inl ⟨_, rfl, rfl, hnodup, ?_, ?_⟩⟩
        · intro j hj
          exact hjs j hj
        · intro i
          rw [getMatched_markMatched _ _ _ hbound, hprof3 i]
          rfl
      · rw [if_neg hsc] at h
        cases h
        exact ⟨hlen3, outTx_classify cfg tx,
          Or.inr ⟨fun m => classify_ne_matched cfg tx m, hprof3⟩⟩

theorem runGo_cons_pos (cfg : List ExRule) (tx : Tx) (rest : List Tx)
    (invs : List InvRow) (acc : RecRes) (h : Q.lt 0 tx.amount = true) :
    runGo cfg (tx :: rest) invs acc = runGo cfg rest invs acc := by
  conv_lhs => unfold runGo
  rw [if_pos h]

theorem runGo_cons_neg (cfg : List ExRule) (tx : Tx) (rest : List Tx)
    (invs : List InvRow) (acc : RecRes) (h : Q.lt 0 tx.amount = false) :
    runGo cfg (tx :: rest) invs acc =
      match processTx cfg invs tx with
      | none => none
      | some (invs', out) => runGo cfg rest invs' (pushOut acc out) := by
  conv_lhs => unfold runGo
  rw [if_neg (by simp [h])]

/-- Run accumulation: `runGo` over an appended list is sequential
composition. -/
theorem runGo_append (cfg : List ExRule) :
    ∀ (l1 l2 : List Tx) (invs : List InvRow) (acc : RecRes),
      runGo cfg (l1 ++ l2) invs acc =
        (runGo cfg l1 invs acc).bind fun p => runGo cfg l2 p.2 p.1 := by
  intro l1
  induction l1 with
  | nil => intro l2 invs acc; rfl
  | cons tx rest ih =>
    intro l2 invs acc
    rw [List.cons_append]
    by_cases hpos : Q.lt 0 tx.amount = true
    · rw [runGo_cons_pos cfg tx (rest ++ l2) invs acc hpos,
        runGo_cons_pos cfg tx rest invs acc hpos]
      exact ih l2 invs acc
    · have hf : Q.lt 0 tx.amount = false := by
        cases hq : Q.lt 0 tx.amount
        · rfl
        · exact absurd hq hpos
      rw [runGo_cons_neg cfg tx (rest ++ l2) invs acc hf,
        runGo_cons_neg cfg tx rest invs acc hf]
      cases hp : processTx cfg invs tx with
      | none => rfl
      | some p =>
        obtain ⟨invs', out⟩ := p
        exact ih l2 invs' (pushOut acc out)

theorem pushOut_matched_of_ne (acc : RecRes) (out : TxOut)
    (h : ∀ m, out ≠ TxOut.matchedOut m) :
    (pushOut acc out).matched = acc.matched := by
  cases out with
  | matchedOut m => exact absurd rfl (h m)
  | missingOut t => rfl
  | exemptOut e => rfl

/-- Master invariant of the run loop: the final matched list extends the
accumulator with the new matches; an invoice is consumed at the end iff
it was consumed at the start or is referenced by a new match; the new
matches have duplicate-free, in-bounds, initially-unconsumed reference
lists and are pairwise disjoint. -/
theorem runGo_spec (cfg : List ExRule) :
    ∀ (txs : List Tx) (invs : List InvRow) (acc : RecRes) (res : RecRes) (fi : List InvRow),
      runGo cfg txs invs acc = some (res, fi) →
      fi.length = invs.length ∧
      ∃ suf, res.matched = acc.matched ++ suf ∧
        (∀ i, getMatched fi i = true ↔
          (getMatched invs i = true ∨ ∃ m ∈ suf, i ∈ m.refs)) ∧
        (∀ m ∈ suf, m.refs.Nodup ∧
          ∀ j ∈ m.refs, j < invs.length ∧ getMatched invs j = false) ∧
        List.Pairwise (fun m₁ m₂ => ∀ j, j ∈ m₁.refs → j ∉ m₂.refs) suf := by
  intro txs
  induction txs with
  | nil =>
    intro invs acc res fi h
    cases h
    exact ⟨rfl, [], by simp, fun i => by simp, by simp, by simp⟩
  | cons tx rest ih =>
    intro invs acc res fi h
    by_cases hpos : Q.lt 0 tx.amount = true
    · rw [runGo_cons_pos cfg tx rest invs acc hpos] at h
      exact ih invs acc res fi h
    · have hf : Q.lt 0 tx.amount = false := by
        cases hq : Q.lt 0 tx.amount
        · rfl
        · exact absurd hq hpos
      rw [runGo_cons_neg cfg tx rest invs acc hf] at h
      cases hp : processTx cfg invs tx with
      | none => rw [hp] at h; cases h
      | some p =>
        obtain ⟨invs1, out⟩ := p
        rw [hp] at h
        obtain ⟨hlen, suf', hsufm, hiff, hbounds, hpw⟩ := ih invs1 (pushOut acc out) res fi h
        obtain ⟨hplen, houtTx, hcases⟩ := processTx_spec cfg invs tx invs1 out hp
        rcases hcases with ⟨m, hout, hmtx, hnodup, hjs, hmark⟩ | ⟨hne, hpres⟩
        · subst hout
          refine ⟨hlen.trans hplen, m :: suf', ?_, ?_, ?_, ?_⟩
          · rw [hsufm]
            show (acc.matched ++ [m]) ++ suf' = _
            rw [List.append_assoc]
            rfl
          · intro i
            rw [hiff i]
            have hm1 : getMatched invs1 i = true ↔
                (getMatched invs i = true ∨ i ∈ m.refs) := by
              rw [hmark i]
              simp
            constructor
            · rintro (h1 | ⟨m', hm', hj'⟩)
              · rcases hm1.mp h1 with h2 | h2
                · exact Or.inl h2
                · exact Or.inr ⟨m, List.mem_cons_self _ _, h2⟩
              · exact Or.inr ⟨m', List.mem_cons_of_mem _ hm', hj'⟩
            · rintro (h1 | ⟨m', hm', hj'⟩)
              · exact Or.inl (hm1.mpr (Or.inl h1))
              · rcases List.mem_cons.mp hm' with rfl | hm''
                · exact Or.inl (hm1.mpr (Or.inr hj'))
                · exact Or.inr ⟨m', hm'', hj'⟩
          · intro m' hm'
            rcases List.mem_cons.mp hm' with rfl | hm''
            · exact ⟨hnodup, fun j hj => ⟨(hjs j hj).2, (hjs j hj).1⟩⟩
            · obtain ⟨hn, hb⟩ := hbounds m' hm''
              refine ⟨hn, fun j hj => ?_⟩
              obtain ⟨hjl, hjf⟩ := hb j hj
              have : getMatched invs j = false := by
                have := hmark j
                rw [hjf] at this
                cases hg : getMatched invs j
                · rfl
                · rw [hg] at this; simp at this
              exact ⟨hplen ▸ hjl, this⟩
          · refine List.Pairwise.cons ?_ hpw
            intro m' hm' j hj hj'
            have h1 : getMatched invs1 j = true := by
              rw [hmark j]
              have : m.refs.contains j = true := by
                simpa using hj
              simp only [this, Bool.or_true]
            have h2 : getMatched invs1 j = false := ((hbounds m' hm').2 j hj').2
            rw [h1] at h2
            cases h2
        · refine ⟨hlen.trans hplen, suf', hsufm.trans (by rw [pushOut_matched_of_ne acc out hne]), ?_, ?_, hpw⟩
          · intro i
            rw [hiff i, hpres i]
          · intro m' hm'
            obtain ⟨hn, hb⟩ := hbounds m' hm'
            refine ⟨hn, fun j hj => ?_⟩
            obtain ⟨hjl, hjf⟩ := hb j hj
            exact ⟨hplen ▸ hjl, (hpres j) ▸ hjf⟩

theorem pushOut_count (acc : RecRes) (out : TxOut) (t : Tx) :
    countRes (pushOut acc out) t = countRes acc t + (if outTx out = t then 1 else 0) := by
  cases out with
  | matchedOut m =>
    show countRes { acc with matched := acc.matched ++ [m] } t = _
    unfold countRes
    simp only [List.map_append, List.count_append, List.map_cons, List.map_nil, outTx]
    by_cases hm : m.transaction = t <;> simp [hm, List.count_singleton'] <;> omega
  | missingOut t' =>
    show countRes { acc with missing := acc.missing ++ [t'] } t = _
    unfold countRes
    simp only [List.count_append, outTx]
    by_cases hm : t' = t <;> simp [hm, List.count_singleton'] <;> omega
  | exemptOut e =>
    show countRes { acc with exempt := acc.exempt ++ [e] } t = _
    unfold countRes
    simp only [List.map_append, List.count_append, List.map_cons, List.map_nil, outTx]
    by_cases hm : e.transaction = t <;> simp [hm, List.count_singleton'] <;> omega

/-- Counting invariant of the run loop: every processed (non-positive)
transaction lands in exactly one of the three output lists. -/
theorem runGo_count (cfg : List ExRule) :
    ∀ (txs : List Tx) (invs : List InvRow) (acc : RecRes) (res : RecRes) (fi : List InvRow),
      runGo cfg txs invs acc = some (res, fi) →
      ∀ t, countRes res t =
        countRes acc t + (txs.filter fun x => !(Q.lt 0 x.amount)).count t := by
  intro txs
  induction txs with
  | nil =>
    intro invs acc res fi h t
    cases h
    simp
  | cons tx rest ih =>
    intro invs acc res fi h t
    by_cases hpos : Q.lt 0 tx.amount = true
    · rw [runGo_cons_pos cfg tx rest invs acc hpos] at h
      rw [List.filter_cons_of_neg (by simp [hpos])]
      exact ih invs acc res fi h t
    · have hf : Q.lt 0 tx.amount = false := by
        cases hq : Q.lt 0 tx.amount
        · rfl
        · exact absurd hq hpos
      rw [runGo_cons_neg cfg tx rest invs acc hf] at h
      cases hp : processTx cfg invs tx with
      | none => rw [hp] at h; cases h
      | some p =>
        obtain ⟨invs1, out⟩ := p
        rw [hp] at h
        have hcount := ih invs1 (pushOut acc out) res fi h t
        have houtTx := (processTx_spec cfg invs tx invs1 out hp).2.1
        rw [List.filter_cons_of_pos (by simp [hf])]
        rw [hcount, pushOut_count acc out t, houtTx, List.count_cons]
        by_cases hm : tx = t <;> simp [hm] <;> omega

/-- C2 (amended): positive-amount transactions are skipped outright and
appear in no output list; every other transaction of a completed run
appears in exactly one of matched/missing/exempt — as multisets, the
three outputs together are exactly the non-positive transactions of the
input. -/
theorem c2_partition_amended (cfg : List ExRule) (txs : List Tx) (invs : List InvRow)
    (res : RecRes) (fi : List InvRow)
    (h : reconcileTransactions cfg txs invs = some (res, fi)) (t : Tx) :
    countRes res t = (txs.filter fun x => !(Q.lt 0 x.amount)).count t := by
  have := runGo_count cfg txs invs { matched := [], missing := [], exempt := [] } res fi h t
  simpa [countRes] using this

def c2wtx : Tx :=
  { date := "", amount := qi (-7), currency := "", counterparty := "",
    description := "", typ := "", raw := "" }

/-- C2 witness: a run over one outgoing transaction and an empty
registry puts it in exactly one list. -/
theorem c2_partition_amended_witness :
    countRes { matched := [], missing := [c2wtx], exempt := [] } c2wtx =
      ([c2wtx].filter fun x => !(Q.lt 0 x.amount)).count c2wtx :=
  c2_partition_amended [] [c2wtx] [] { matched := [], missing := [c2wtx], exempt := [] } []
    (by decide) c2wtx

/-- C3: after every completed run, every invoice referenced by a
MatchResult (primary or additional) ends consumed; reference lists are
duplicate-free and pairwise disjoint across MatchResults; and the
consumed flags are monotone along the run — whatever is consumed after
any prefix of the transaction list is still consumed at the end. -/
theorem c3_consumption_invariant (cfg : List ExRule) (txs : List Tx) (invs : List InvRow)
    (res : RecRes) (fi : List InvRow)
    (h : reconcileTransactions cfg txs invs = some (res, fi)) :
    (∀ m ∈ res.matched, ∀ j ∈ m.refs, getMatched fi j = true) ∧
    (∀ m ∈ res.matched, m.refs.Nodup) ∧
    List.Pairwise (fun m₁ m₂ => ∀ j, j ∈ m₁.refs → j ∉ m₂.refs) res.matched ∧
    (∀ pre post res' fi', txs = pre ++ post →
      reconcileTransactions cfg pre invs = some (res', fi') →
      ∀ i, getMatched fi' i = true → getMatched fi i = true) := by
  obtain ⟨hlen, suf, hsufm, hiff, hbounds, hpw⟩ :=
    runGo_spec cfg txs invs { matched := [], missing := [], exempt := [] } res fi h
  have hres : res.matched = suf := by simpa using hsufm
  refine ⟨?_, ?_, ?_, ?_⟩
  · intro m hm j hj
    exact (hiff j).mpr (Or.inr ⟨m, hres ▸ hm, hj⟩)
  · intro m hm
    exact (hbounds m (hres ▸ hm)).1
  · rw [hres]
    exact hpw
  · intro pre post res' fi' hsplit hpre i hi
    subst hsplit
    have happ := runGo_append cfg pre post invs { matched := [], missing := [], exempt := [] }
    unfold reconcileTransactions at h hpre
    rw [happ, hpre] at h
    obtain ⟨_, suf2, _, hiff2, _, _⟩ := runGo_spec cfg post fi' res' res fi h
    exact (hiff2 i).mpr (Or.inl hi)

def c3tx : Tx :=
  { date := "", amount := qi (-30), currency := "", counterparty := "acme",
    description := "", typ := "", raw := "" }

def c3inv : InvRow :=
  { number := "", issueDate := "", amountCell := "20", sellerName := "acme" }

def c3res : RecRes :=
  { matched := [{ transaction := c3tx, invIdx := 0, score := 75, additional := [] }],
    missing := [], exempt := [] }

def c3fi : List InvRow :=
  [{ number := "", issueDate := "", amountCell := "20", sellerName := "acme",
     matched := true }]

/-- C3 witness: a concrete Strategy-3 match leaves its invoice consumed. -/
theorem c3_consumption_invariant_witness : getMatched c3fi 0 = true :=
  (c3_consumption_invariant [] [c3tx] [c3inv] c3res c3fi (by decide)).1
    { transaction := c3tx, invIdx := 0, score := 75, additional := [] }
    (by simp [c3res]) 0 (by simp [MatchRes.refs])

/-! ## C10: frame effect on unreferenced registry records -/

def c10tx : Tx :=
  { date := "", amount := qi (-200), currency := "PLN",
    counterparty := "acme globex", description := "", typ := "", raw := "" }

def c10invs : List InvRow :=
  [ { number := "x", issueDate := "", amountCell := "10", sellerName := "acme" },
    { number := "y", issueDate := "", amountCell := "180", sellerName := "globex" } ]

/-- C10 counterexample: invoice 0 (seller `acme`, amount 10) is first
annotated by the Strategy-3 partial branch, then displaced as the best
match by invoice 1 (seller `globex`, diff 20 < 50, score 75); invoice 0
ends the run unreferenced by any MatchResult yet carries
`partial = true` and a non-empty notes string — its annotations did not
stay unchanged. -/
theorem c10_frame_counterexample :
    (reconcileTransactions [] [c10tx] c10invs).map
        (fun p => (p.1.matched.all fun m => decide (0 ∉ m.refs),
                   (p.2.getD 0 { number := "", issueDate := "", amountCell := "",
                                 sellerName := "" }).partFlag,
                   (p.2.getD 0 { number := "", issueDate := "", amountCell := "",
                                 sellerName := "" }).notes,
                   getMatched p.2 0)) =
      some (true, true, "Partial Match. Remaining: 190.00", false) := by decide

/-- C10 (amended): the run may flip `partial`/`notes` on an invoice it
never ultimately references (a displaced Strategy-3 partial candidate),
but the consumed flag is only ever set on referenced invoices: a record
that starts unconsumed and is referenced by no MatchResult ends the run
unconsumed. -/
theorem c10_frame_amended (cfg : List ExRule) (txs : List Tx) (invs : List InvRow)
    (res : RecRes) (fi : List InvRow) (i : Nat)
    (h : reconcileTransactions cfg txs invs = some (res, fi))
    (hInit : getMatched invs i = false)
    (hUnref : ∀ m ∈ res.matched, i ∉ m.refs) :
    getMatched fi i = false := by
  obtain ⟨hlen, suf, hsufm, hiff, hbounds, hpw⟩ :=
    runGo_spec cfg txs invs { matched := [], missing := [], exempt := [] } res fi h
  have hres : res.matched = suf := by simpa using hsufm
  cases hg : getMatched fi i
  · rfl
  · rcases (hiff i).mp hg with h1 | ⟨m, hm, hj⟩
    · rw [hInit] at h1; cases h1
    · exact absurd hj (hUnref m (hres ▸ hm))

def c10fi : List InvRow :=
  [ { number := "x", issueDate := "", amountCell := "10", sellerName := "acme",
      partFlag := true, notes := "Partial Match. Remaining: 190.00" },
    { number := "y", issueDate := "", amountCell := "180", sellerName := "globex",
      matched := true } ]

def c10res : RecRes :=
  { matched := [{ transaction := c10tx, invIdx := 1, score := 75, additional := [] }],
    missing := [], exempt := [] }

/-- C10 witness: in the displaced-partial run the unreferenced invoice 0
ends unconsumed. -/
theorem c10_frame_amended_witness : getMatched c10fi 0 = false :=
  c10_frame_amended [] [c10tx] c10invs c10res c10fi 0 (by decide) (by decide) (by decide)

/-- C6 (amended): strategy 2 runs only when strategy 1 selected no
candidate at all (no unconsumed invoice within the 0.05 amount
tolerance, not merely none scoring ≥ 70), and then the transaction is
matched at score 85 to the first unconsumed invoice accepted by the
code's two-branch check `s2Hit`: verbatim containment of the
trimmed/lowercased number (length ≥ 3), or — only when the verbatim
check fails and the number is longer than 5 — containment after
stripping both sides to `[a-z0-9]`, in both branches under
`|diff| < 100 ∨ |diff| < 10%` of the invoice amount. -/
theorem c6_strategy2_amended (cfg : List ExRule) (invs : List InvRow) (tx : Tx)
    (i : Nat) (inv : InvRow)
    (h1 : (strat1 tx.amount (parseDate tx.date)
        (jsToLower (tx.counterparty ++ " " ++ tx.description)) invs).1 = none)
    (h2 : invs.enum.find?
        (s2Hit (jsToLower (tx.counterparty ++ " " ++ tx.description)) tx.amount) =
      some (i, inv)) :
    processTx cfg invs tx =
      some (invs.set i { inv with matched := true },
            TxOut.matchedOut
              { transaction := tx, invIdx := i, score := 85, additional := [] }) := by
  have hgi : invs[i]? = some inv :=
    List.mem_enum_iff_getElem?.mp (List.mem_of_find?_eq_some h2)
  have hsel : selectMatch invs tx = some (some i, 85, [], invs) := by
    unfold selectMatch
    simp only [h1, strat2_eq_find, h2, Option.map_some']
  unfold processTx
  rw [hsel]
  simp only []
  rw [if_pos (by omega : 85 ≥ 70)]
  unfold markMatched
  show some (setMatched invs i, _) = _
  unfold setMatched
  rw [hgi]

def c6btx : Tx :=
  { date := "", amount := qi (-2961), currency := "PLN",
    counterparty := "Volkswagen", description := "faktura lm/25/09/132141",
    typ := "", raw := "" }

def c6binv : InvRow :=
  { number := "LM/25/09/132141", issueDate := "", amountCell := "2922",
    sellerName := "" }

/-- C6 witness: the Scenario-B style instance (embedded number, amounts
39 apart) is matched by strategy 2 at score 85. -/
theorem c6_strategy2_amended_witness :
    processTx [] [c6binv] c6btx =
      some ([c6binv].set 0 { c6binv with matched := true },
            TxOut.matchedOut
              { transaction := c6btx, invIdx := 0, score := 85, additional := [] }) :=
  c6_strategy2_amended [] [c6binv] c6btx 0 c6binv (by decide) (by decide)
